import Mathlib

/-!
Verification of the TuneFree Mobile provider-normalization and playback core.

The development shallowly embeds the relevant functions of `services/api.ts`
(`fixUrl`, `findId`, `findImage`, `extractList`, `normalizeSongs`,
`executeMethod`, `parseSongs`, `getSongUrl`, `searchAggregate`) and of the
player/library contexts (`playSong`, the audio error handler, `addToQueue`,
`toggleFavorite`) as executable Lean definitions over a model of untyped
JavaScript values, and proves the spec's testable properties about them.
-/

set_option autoImplicit false

namespace TuneFree

/-! ## A model of untyped JavaScript values

`Jval` models the JSON-like values flowing through the API layer.  `jundefined`
models JavaScript `undefined` (absent property), distinct from `null`.
Arrays and objects use the mutual types `JArr`/`JObj` so that all functions
below can be defined by structural recursion.  Numbers are modelled as
integers: every number the embedded code branches on is integral. -/

mutual
inductive Jval where
  | jundefined
  | jnull
  | jbool (b : Bool)
  | jnum (n : Int)
  | jstr (s : String)
  | jarr (elems : JArr)
  | jobj (fields : JObj)
inductive JArr where
  | nil
  | cons (head : Jval) (tail : JArr)
inductive JObj where
  | nil
  | cons (key : String) (val : Jval) (tail : JObj)
end

def JArr.toList : JArr → List Jval
  | .nil => []
  | .cons x t => x :: t.toList

def JArr.ofList : List Jval → JArr
  | [] => .nil
  | x :: t => .cons x (JArr.ofList t)

def JObj.ofList : List (String × Jval) → JObj
  | [] => .nil
  | (k, v) :: t => .cons k v (JObj.ofList t)

/-- Convenience constructor: a JS array literal from a Lean list. -/
def jarrL (l : List Jval) : Jval := .jarr (JArr.ofList l)

/-- Convenience constructor: a JS object literal from a key/value list. -/
def jobjL (l : List (String × Jval)) : Jval := .jobj (JObj.ofList l)

@[simp] theorem JArr.toList_ofList (l : List Jval) : (JArr.ofList l).toList = l := by
  induction l with
  | nil => rfl
  | cons x t ih => simp [JArr.ofList, JArr.toList, ih]

/-- JS truthiness: `undefined`, `null`, `false`, `0` and `""` are falsy;
every other value, in particular every array and object, is truthy. -/
def truthy : Jval → Bool
  | .jundefined => false
  | .jnull => false
  | .jbool b => b
  | .jnum n => n ≠ 0
  | .jstr s => s ≠ ""
  | .jarr _ => true
  | .jobj _ => true

/-- First binding of `key` in an object, models JS property lookup order. -/
def JObj.find : JObj → String → Option Jval
  | .nil, _ => none
  | .cons k v t, key => if k = key then some v else t.find key

/-- JS property access `v[key]`: `none` models `undefined` (also for every
non-object receiver, where property access yields `undefined`). -/
def getField : Jval → String → Option Jval
  | .jobj fs, key => fs.find key
  | _, _ => none

/-- Property access returning `jundefined` for a missing property, mirroring the
value JS expressions actually see. -/
def fget (v : Jval) (key : String) : Jval := (getField v key).getD .jundefined

/-- Truthiness of an optional value (an absent property is falsy). -/
def truthyO (o : Option Jval) : Bool :=
  match o with
  | some v => truthy v
  | none => false

/-- `v[key]` when truthy, else `none`; models the `if (v.key) ...` idiom. -/
def tgetJ (v : Jval) (key : String) : Option Jval :=
  match getField v key with
  | some x => if truthy x then some x else none
  | none => none

/-- JS `a || b`: `a` when truthy, else `b`. -/
def jsOr (a b : Jval) : Jval := if truthy a then a else b

mutual
/-- JS `String(v)` conversion. -/
def jsToString : Jval → String
  | .jundefined => "undefined"
  | .jnull => "null"
  | .jbool b => if b then "true" else "false"
  | .jnum n => toString n
  | .jstr s => s
  | .jarr xs => jsJoinArr xs
  | .jobj _ => "[object Object]"

/-- JS `Array.prototype.join(",")` (the array part of `String(v)`):
`undefined`/`null` elements become empty strings. -/
def jsJoinArr : JArr → String
  | .nil => ""
  | .cons x .nil =>
      (match x with
       | .jundefined => ""
       | .jnull => ""
       | v => jsToString v)
  | .cons x (.cons y t) =>
      (match x with
       | .jundefined => ""
       | .jnull => ""
       | v => jsToString v) ++ "," ++ jsJoinArr (.cons y t)
end

/-! ## String primitives

Structurally recursive (hence kernel-computable) models of the JS string
operations used by `api.ts`: `startsWith`, `includes`, global and
first-occurrence `replace`, `trim` and `encodeURIComponent`. -/

def isPrefixCL : List Char → List Char → Bool
  | [], _ => true
  | _ :: _, [] => false
  | p :: ps, c :: cs => p = c && isPrefixCL ps cs

def containsCL (pat : List Char) : List Char → Bool
  | [] => isPrefixCL pat []
  | c :: rest => isPrefixCL pat (c :: rest) || containsCL pat rest

/-- Replace every (non-overlapping, leftmost-first) occurrence of `pat`;
fueled by the input length so the recursion is structural. -/
def replaceAllCLF (pat rep : List Char) : Nat → List Char → List Char
  | _, [] => []
  | 0, l => l
  | n + 1, c :: cs =>
    if pat ≠ [] && isPrefixCL pat (c :: cs) then
      rep ++ replaceAllCLF pat rep n (List.drop pat.length (c :: cs))
    else
      c :: replaceAllCLF pat rep n cs

def replaceFirstCL (pat rep : List Char) : List Char → List Char
  | [] => []
  | c :: cs =>
    if pat ≠ [] && isPrefixCL pat (c :: cs) then rep ++ List.drop pat.length (c :: cs)
    else c :: replaceFirstCL pat rep cs

/-- JS `s.replace(/pat/g, rep)` for a literal pattern. -/
def sReplaceAll (s pat rep : String) : String :=
  ⟨replaceAllCLF pat.data rep.data s.data.length s.data⟩

/-- JS `s.replace(pat, rep)` for a literal pattern (first occurrence only). -/
def sReplaceFirst (s pat rep : String) : String :=
  ⟨replaceFirstCL pat.data rep.data s.data⟩

/-- JS `s.startsWith(pre)`. -/
def sStartsWith (s pre : String) : Bool := isPrefixCL pre.data s.data

/-- JS `s.includes(pat)`. -/
def sContains (s pat : String) : Bool := containsCL pat.data s.data

/-- JS `s.trim()`. -/
def sTrim (s : String) : String :=
  ⟨((s.data.dropWhile Char.isWhitespace).reverse.dropWhile Char.isWhitespace).reverse⟩

def hexChar (n : Nat) : Char :=
  if n < 10 then Char.ofNat (48 + n) else Char.ofNat (55 + n)

/-- UTF-8 bytes of a code point, for percent-encoding. -/
def utf8ByteList (n : Nat) : List Nat :=
  if n < 128 then [n]
  else if n < 2048 then [192 + n / 64, 128 + n % 64]
  else if n < 65536 then [224 + n / 4096, 128 + (n / 64) % 64, 128 + n % 64]
  else [240 + n / 262144, 128 + (n / 4096) % 64, 128 + (n / 64) % 64, 128 + n % 64]

/-- The characters `encodeURIComponent` leaves unescaped. -/
def isUnreservedChar (c : Char) : Bool :=
  (65 ≤ c.toNat && c.toNat ≤ 90) || (97 ≤ c.toNat && c.toNat ≤ 122) ||
  (48 ≤ c.toNat && c.toNat ≤ 57) ||
  [45, 95, 46, 33, 126, 42, 39, 40, 41].contains c.toNat

/-- JS `encodeURIComponent`. -/
def encodeURIComponent (s : String) : String :=
  ⟨s.data.flatMap (fun c =>
    if isUnreservedChar c then [c]
    else (utf8ByteList c.toNat).flatMap (fun b => ['%', hexChar (b / 16), hexChar (b % 16)]))⟩

/-! ## `fixUrl` (api.ts lines 32-66) -/

/-- `fixUrl(url)`: returns `''` for non-strings and falsy input, otherwise
rewrites the Kuwo CDN host, trims, fixes protocol-relative URLs, upgrades
`http://` to `https://` for known TLS-capable hosts, and upgrades the QQ
image size token `300x300` to `500x500`. -/
def fixUrl (url : Jval) : String :=
  match url with
  | .jstr s =>
    if s = "" then ""
    else
      let f1 := sReplaceAll s "kwcdn.kuwo.cn" "kuwo.cn"
      let f2 := sTrim f1
      let f3 := if sStartsWith f2 "//" then "https:" ++ f2 else f2
      let f4 :=
        if sStartsWith f3 "http://" &&
           (sContains f3 "music.126.net" || sContains f3 "y.gtimg.cn" ||
            sContains f3 "qpic.cn" || sContains f3 "kuwo.cn" ||
            sContains f3 "img.kwcdn.kuwo.cn") then
          sReplaceFirst f3 "http://" "https://"
        else f3
      if sContains f4 "300x300" then sReplaceFirst f4 "300x300" "500x500" else f4
  | _ => ""

/-! ## `findId` (api.ts lines 69-92) -/

/-- The first truthy property among `keys`, in order; models a cascade of
`if (item.k) return ...` statements. -/
def firstTruthyField (item : Jval) : List String → Option Jval
  | [] => none
  | k :: ks =>
    match tgetJ item k with
    | some v => some v
    | none => firstTruthyField item ks

/-- `findId(item, platform)`: deep identity lookup.  For `'qq'` the probe
order is `topId`, `id`, `mid`, `songmid`, `file.media_mid`; for `'kuwo'` it
is `rid`, `musicrid`; generically `id` then `ID`.  Every hit is returned
through `String(...)`. -/
def findId (item : Jval) (platform : String) : Option String :=
  if ¬ truthy item then none
  else
    let qqHit : Option Jval :=
      if platform = "qq" then
        match firstTruthyField item ["topId", "id", "mid", "songmid"] with
        | some v => some v
        | none =>
          match (getField item "file").bind (fun f => getField f "media_mid") with
          | some m => if truthy m then some m else none
          | none => none
      else none
    match qqHit with
    | some v => some (jsToString v)
    | none =>
      let kuwoHit : Option Jval :=
        if platform = "kuwo" then firstTruthyField item ["rid", "musicrid"] else none
      match kuwoHit with
      | some v => some (jsToString v)
      | none => (firstTruthyField item ["id", "ID"]).map jsToString

/-! ## `findImage` (api.ts lines 95-109) -/

/-- The probe order of `findImage`. -/
def imageKeys : List String :=
  ["picUrl", "coverImgUrl", "pic", "pic_v12", "frontPicUrl",
   "headPicUrl", "img", "cover", "imgUrl", "album_pic", "albumpic"]

/-- First property among `keys` that is a truthy string, models
`if (item[key] && typeof item[key] === 'string')`. -/
def firstStringField (item : Jval) : List String → Option String
  | [] => none
  | k :: ks =>
    match getField item k with
    | some (.jstr s) => if s ≠ "" then some s else firstStringField item ks
    | _ => firstStringField item ks

/-- `findImage(item)`: brute-force cover lookup over `imageKeys`, with the
nested QQ fallback `item.mac_detail.pic_v12` (which may return a non-string
value), defaulting to the empty string. -/
def findImage (item : Jval) : Jval :=
  if ¬ truthy item then .jstr ""
  else
    match firstStringField item imageKeys with
    | some s => .jstr s
    | none =>
      match tgetJ item "mac_detail" with
      | some md =>
        match tgetJ md "pic_v12" with
        | some v => v
        | none => .jstr ""
      | none => .jstr ""

/-! ## `extractList` (api.ts lines 112-173)

`extractList` may crash in JS: the grouped branches call `.flatMap` on a
truthy value without checking that it is an array, which throws a
`TypeError` for, say, a truthy string.  The embedding therefore returns
`Option (List Jval)`, with `none` modelling a thrown exception. -/

/-- Per-group song list: `g.toplist || g.topList || g.list || []`. -/
def groupInner (g : Jval) : Jval :=
  match tgetJ g "toplist" with
  | some v => v
  | none =>
    match tgetJ g "topList" with
    | some v => v
    | none =>
      match tgetJ g "list" with
      | some v => v
      | none => jarrL []

/-- How `Array.prototype.flatMap` treats one callback result: arrays are
spliced, any other value is inserted as a single element. -/
def asElems (v : Jval) : List Jval :=
  match v with
  | .jarr xs => xs.toList
  | v => [v]

/-- `flattenGroup(groupArr)`: concatenation of all groups' song lists, in
group order then within-group order. -/
def flattenGroup (gs : List Jval) : List Jval :=
  gs.flatMap (fun g => asElems (groupInner g))

/-- `flattenGroup` applied to an arbitrary truthy value: JS throws unless it
is an array. -/
def flattenGroupV (v : Jval) : Option (List Jval) :=
  match v with
  | .jarr gs => some (flattenGroup gs.toList)
  | _ => none

/-- Does `arr[0]` look like a group wrapper
(`first && (first.toplist || first.topList || first.list || first.groupName)`)? -/
def looksGrouped (first : Jval) : Bool :=
  truthy first &&
    (truthyO (getField first "toplist") || truthyO (getField first "topList") ||
     truthyO (getField first "list") || truthyO (getField first "groupName"))

/-- An array payload: flatten if its head looks like a group, else as-is. -/
def groupedOrSelf (arr : List Jval) : List Jval :=
  if looksGrouped (arr.headD .jundefined) then flattenGroup arr else arr

/-- The fixed priority list of common top-level list field names. -/
def priorityKeys : List String :=
  ["tracks", "songs", "list", "songlist", "toplist", "topList", "data",
   "result", "results", "hotSongs"]

/-- First-layer scan: first priority key whose value is an array, with a
second grouped-shape check on that array. -/
def scanPriority (d : Jval) : List String → Option (List Jval)
  | [] => none
  | k :: ks =>
    match getField d k with
    | some (.jarr arr) => some (groupedOrSelf arr.toList)
    | _ => scanPriority d ks

/-- Scan under the `data` wrapper: first priority key whose value is an
array, returned without a grouped-shape check. -/
def scanPriorityPlain (d : Jval) : List String → Option (List Jval)
  | [] => none
  | k :: ks =>
    match getField d k with
    | some (.jarr arr) => some arr.toList
    | _ => scanPriorityPlain d ks

/-- The single-record fallback: `if (data.id && data.name) return [data]`. -/
def fallbackSingle (data : Jval) : List Jval :=
  if truthyO (getField data "id") && truthyO (getField data "name") then [data] else []

/-- `extractList(data)`: the smart list extractor.  Grouped-chart detection
(`data.data?.groupList`, `data.data?.group`, `data.groupList`, `data.group`)
runs first; then the array case; then the priority-key scan; then the scan
under a `data` wrapper; then the single-record fallback. -/
def extractList (data : Jval) : Option (List Jval) :=
  if ¬ truthy data then some []
  else
    let dd := getField data "data"
    let ddGroupList := dd.bind (fun d => getField d "groupList")
    if truthyO ddGroupList then flattenGroupV (ddGroupList.getD .jundefined)
    else
      let ddGroup := dd.bind (fun d => getField d "group")
      if truthyO ddGroup then flattenGroupV (ddGroup.getD .jundefined)
      else if truthyO (getField data "groupList") then
        flattenGroupV ((getField data "groupList").getD .jundefined)
      else if truthyO (getField data "group") then
        flattenGroupV ((getField data "group").getD .jundefined)
      else
        match data with
        | .jarr xs => some (groupedOrSelf xs.toList)
        | _ =>
          match scanPriority data priorityKeys with
          | some l => some l
          | none =>
            if truthyO dd then
              match fget data "data" with
              | .jarr xs => some (groupedOrSelf xs.toList)
              | ddv =>
                match scanPriorityPlain ddv priorityKeys with
                | some l => some l
                | none => some (fallbackSingle data)
            else some (fallbackSingle data)

/-! ## `normalizeSongs` (api.ts lines 176-235) -/

/-- The canonical song shape produced by `normalizeSongs`.  The four display
fields are `String`-typed because the source wraps each one in `String(...)`;
passthrough spread fields are not modelled. -/
structure SongM where
  source : String
  id : String
  name : String
  artist : String
  album : String
  pic : String
  isValidId : Bool
  deriving DecidableEq, Repr

/-- `arr.map(a => a.name).join('/')` for the artist-list shapes. -/
def joinNames (l : List Jval) : String :=
  String.intercalate "/"
    (l.map (fun a =>
      match fget a "name" with
      | .jundefined => ""
      | .jnull => ""
      | v => jsToString v))

/-- The artist resolution chain: plain `artist` field, else `ar`/`artists`/
`singer` arrays joined with `/`, else `artist_name`. -/
def resolveArtist (actualItem : Jval) : Jval :=
  let artist0 := fget actualItem "artist"
  if truthy artist0 then artist0
  else
    match getField actualItem "ar" with
    | some (.jarr l) => .jstr (joinNames l.toList)
    | _ =>
      match getField actualItem "artists" with
      | some (.jarr l) => .jstr (joinNames l.toList)
      | _ =>
        match getField actualItem "singer" with
        | some (.jarr l) => .jstr (joinNames l.toList)
        | _ =>
          match tgetJ actualItem "artist_name" with
          | some v => v
          | none => artist0

/-- The album resolution chain: an object-valued `album` with a truthy
`name` collapses to that name; otherwise a falsy `album` falls back to
`album_name` then `albumname`. -/
def resolveAlbum (actualItem : Jval) : Jval :=
  let album0 := fget actualItem "album"
  let isObjType : Bool :=
    match album0 with
    | .jobj _ => true
    | .jarr _ => true
    | _ => false
  if isObjType && truthyO (getField album0 "name") then fget album0 "name"
  else if !truthy album0 && truthyO (getField actualItem "album_name") then
    fget actualItem "album_name"
  else if !truthy album0 && truthyO (getField actualItem "albumname") then
    fget actualItem "albumname"
  else album0

/-- The cover resolution chain: `findImage`, then `al?.picUrl`, then
`album?.picUrl`, then (QQ only) a CDN URL synthesized from an album mid,
finally passed through `fixUrl`. -/
def resolvePic (platform : String) (actualItem : Jval) : String :=
  let pic0 := findImage actualItem
  let alPicUrl := (getField actualItem "al").bind (fun al => getField al "picUrl")
  let pic1 := if !truthy pic0 && truthyO alPicUrl then alPicUrl.getD .jundefined else pic0
  let albumPicUrl := (getField actualItem "album").bind (fun al => getField al "picUrl")
  let pic2 := if !truthy pic1 && truthyO albumPicUrl then albumPicUrl.getD .jundefined else pic1
  let pic3 :=
    if !truthy pic2 && platform = "qq" then
      let mid := jsOr (fget actualItem "albummid")
        (jsOr (((getField actualItem "album").bind (fun al => getField al "mid")).getD .jundefined)
          (fget actualItem "album_mid"))
      if truthy mid then
        .jstr ("https://y.gtimg.cn/music/photo_new/T002R300x300M000" ++ jsToString mid ++ ".jpg")
      else pic2
    else pic2
  fixUrl pic3

/-- One level of `item.data ? item.data : item` unwrapping. -/
def unwrapData (item : Jval) : Jval :=
  if truthy (fget item "data") then fget item "data" else item

/-- The per-record body of `normalizeSongs`: `none` models the `null`
returned for a falsy record (then dropped by `.filter(Boolean)`).  `tok` is
the random token drawn for the `temp_` placeholder id. -/
def normalizeSong (platform : String) (tok : String) (item : Jval) : Option SongM :=
  if ¬ truthy item then none
  else
    let actualItem := unwrapData item
    let id? := findId actualItem platform
    some
      { source := platform
        id := match id? with
              | some i => i
              | none => "temp_" ++ tok
        name := jsToString (jsOr (fget actualItem "name")
          (jsOr (fget actualItem "title") (jsOr (fget actualItem "songname") (.jstr "Unknown Song"))))
        artist := jsToString (jsOr (resolveArtist actualItem) (.jstr "Unknown Artist"))
        album := jsToString (jsOr (resolveAlbum actualItem) (.jstr ""))
        pic :=
          let picS := resolvePic platform actualItem
          if picS = "" then "" else picS
        isValidId := id?.isSome }

/-- `normalizeSongs(list, platform)`: maps `normalizeSong` over the list and
drops falsy records.  `tokens i` is the random token for position `i`. -/
def normalizeSongsAux (platform : String) (tokens : Nat → String) : Nat → List Jval → List SongM
  | _, [] => []
  | i, item :: rest =>
    match normalizeSong platform (tokens i) item with
    | some s => s :: normalizeSongsAux platform tokens (i + 1) rest
    | none => normalizeSongsAux platform tokens (i + 1) rest

def normalizeSongs (platform : String) (tokens : Nat → String) (list : List Jval) : List SongM :=
  normalizeSongsAux platform tokens 0 list

/-! ## `executeMethod` (api.ts lines 272-396)

The descriptor fetch, the per-proxy network attempt and the descriptor's
`transform` program are environment inputs: a proxy attempt is either a
thrown fetch (`fetchErr`) or a response whose text parsed/unwrapped to a
`Jval` (`ok`, with `jnull` when all parse attempts failed, mirroring the
`rawData = null` initialisation). -/

/-- Template substitution, `replaceVars` (api.ts lines 281-287): for each
entry of `variables`, globally replace the literal placeholder
`\x7b\x7bkey\x7d\x7d` by the URL-encoded value.  No other substitution (in
particular no expression evaluation) is performed. -/
def replaceVars (vars : List (String × String)) (str : String) : String :=
  vars.foldl
    (fun result kv =>
      sReplaceAll result ("\x7b\x7b" ++ kv.1 ++ "\x7d\x7d") (encodeURIComponent kv.2))
    str

/-- One proxy attempt as seen by the loop body. -/
inductive Attempt where
  | fetchErr
  | ok (rawData : Jval)

/-- The garbage-data detection (api.ts line 370): a non-empty array whose
first element is the number `-1` or the string `"-1"`. -/
def isGarbage : Jval → Bool
  | .jarr (.cons x _) =>
    (match x with
     | .jstr s => s = "-1"
     | .jnum n => n = -1
     | _ => false)
  | _ => false

/-- The Netease anti-scraping sentinel (api.ts line 374): `code === -447`. -/
def isNetease447 (v : Jval) : Bool :=
  match getField v "code" with
  | some (.jnum n) => n = -447
  | _ => false

/-- Does the loop body `continue` past this attempt? -/
def attemptSkipped : Attempt → Bool
  | .fetchErr => true
  | .ok raw => !truthy raw || isGarbage raw || isNetease447 raw

/-- The proxy iteration (api.ts lines 309-396): try each attempt in order;
skip thrown fetches, unparsable (falsy) data, garbage arrays and the -447
sentinel; on the first usable response apply the optional transform (a
thrown transform, modelled by the function returning `none`, falls back to
the raw payload); exhaustion returns `none` (JS `null`). -/
def processProxies (tf : Option (Jval → Option Jval)) : List Attempt → Option Jval
  | [] => none
  | .fetchErr :: rest => processProxies tf rest
  | .ok raw :: rest =>
    if ¬ truthy raw then processProxies tf rest
    else if isGarbage raw then processProxies tf rest
    else if isNetease447 raw then processProxies tf rest
    else
      some
        (match tf with
         | none => raw
         | some f => (f raw).getD raw)

/-- Strict equality `v.code === 0` on a configuration response. -/
def isCodeZero (v : Jval) : Bool :=
  match getField v "code" with
  | some (.jnum n) => n = 0
  | _ => false

/-- `executeMethod` after the descriptor fetch: `null` when the
configuration response is falsy, has `code !== 0` or no truthy `data`;
otherwise the result of the proxy loop. -/
def executeMethodM (res : Jval) (tf : Option (Jval → Option Jval))
    (attempts : List Attempt) : Option Jval :=
  if ¬ truthy res then none
  else if ¬ isCodeZero res then none
  else if ¬ truthyO (getField res "data") then none
  else processProxies tf attempts

/-! ## `parseSongs` / `getSongUrl` (api.ts lines 398-428) -/

/-- Outcome of `parseSongs`: JS `null`, a thrown exception (from
`extractList`), or a list. -/
inductive PResult where
  | nullRes
  | thrown
  | ok (l : List Jval)

/-- `parseSongs(ids, platform, quality)` given the `/v1/parse` response
(`resp`, with `jnull` modelling a `null` from `tuneHubFetch`).  The second
component records whether a network request was issued. -/
def parseSongsM (ids : String) (platform : Jval) (resp : Jval) : PResult × Bool :=
  if ids = "" ∨ ¬ truthy platform then (.nullRes, false)
  else if sStartsWith ids "temp_" then (.nullRes, false)
  else if ¬ truthy resp ∨ ¬ truthyO (getField resp "data") then (.nullRes, true)
  else
    match extractList (fget resp "data") with
    | some l => (.ok l, true)
    | none => (.thrown, true)

/-- Outcome of `getSongUrl`: a thrown exception or a returned
`string | null`. -/
inductive GResult where
  | thrown
  | ret (r : Option String)
  deriving DecidableEq

/-- Strict equality `source === 'undefined'`. -/
def isUndefinedLiteral (v : Jval) : Bool :=
  match v with
  | .jstr s => s = "undefined"
  | _ => false

/-- `getSongUrl(id, source, quality)`: `null` without any request for a
falsy `source` or the literal string `'undefined'`; otherwise
`fixUrl(data?.[0]?.url) || null`. -/
def getSongUrlM (id : String) (source : Jval) (resp : Jval) : GResult × Bool :=
  if ¬ truthy source ∨ isUndefinedLiteral source then (.ret none, false)
  else
    match parseSongsM id source resp with
    | (.thrown, b) => (.thrown, b)
    | (.nullRes, b) => (.ret none, b)
    | (.ok l, b) =>
      let url := fget (l.headD .jundefined) "url"
      let fixed := fixUrl url
      (.ret (if fixed = "" then none else some fixed), b)

/-! ## `searchAggregate` (api.ts lines 439-450) -/

/-- The interleaving loop: for each position `i` below the longest list
length, push the `i`-th element of each provider list that has one. -/
def roundRobinMerge {α : Type} (results : List (List α)) : List α :=
  let mx := (results.map List.length).foldr Nat.max 0
  (List.range mx).flatMap (fun i => results.filterMap (fun r => r.get? i))

/-- `searchAggregate` after the fan-out: each provider outcome is either a
result list or a failure (`none`), and `.catch(() => [])` turns failures
into empty lists before merging. -/
def searchAggregateM {α : Type} (outcomes : List (Option (List α))) : List α :=
  roundRobinMerge (outcomes.map (fun r => r.getD []))

/-! ## Player and library contexts

`PlayerContext.tsx` `playSong` (lines 271-412) with its quality-degradation
retry, the audio `error` handler (lines 158-172), `addToQueue`
(lines 548-553) and `LibraryContext.tsx` `toggleFavorite` (lines 70-77).
The `parseSongFull` resolver and the in-flight selection change are
environment inputs. -/

/-- A `string | number` song id as stored on context songs. -/
inductive SId where
  | str (s : String)
  | num (n : Int)
  deriving DecidableEq, Repr

/-- `String(id)`, the coercion used by the queue and favorites checks. -/
def sidStr : SId → String
  | .str s => s
  | .num n => toString n

/-- The fields of a context `Song` that the queue/favorites/race logic
reads. -/
structure CSong where
  id : SId
  source : String
  deriving DecidableEq, Repr

/-- `addToQueue` (PlayerContext.tsx lines 548-553): append unless some
queued song has the same `String(id)`. -/
def addToQueue (queue : List CSong) (song : CSong) : List CSong :=
  if queue.any (fun s => sidStr s.id = sidStr song.id) then queue
  else queue ++ [song]

/-- `toggleFavorite` (LibraryContext.tsx lines 70-77): remove every song
with the same `String(id)` if one is present, else prepend. -/
def toggleFavorite (favorites : List CSong) (song : CSong) : List CSong :=
  if favorites.any (fun s => sidStr s.id = sidStr song.id) then
    favorites.filter (fun s => sidStr s.id ≠ sidStr song.id)
  else song :: favorites

/-- The race-condition check (PlayerContext.tsx lines 306-309): the
in-flight resolution is discarded when `currentSongRef.current?.id` is not
strictly equal to the resolved song's id. -/
def raceDiscards (currentId : Option SId) (songId : SId) : Bool :=
  match currentId with
  | some i => i ≠ songId
  | none => true

/-- The four audio quality tiers; `q128` is the lowest (`'128k'`). -/
inductive Quality where
  | q128
  | q320
  | flac
  | flac24
  deriving DecidableEq, Repr

/-- Environment of one `playSong` call chain for a fixed song: the URL
`parseSongFull` resolves per quality, and whether the active selection
changed while the resolution at that quality was in flight. -/
structure PEnv where
  resolve : Quality → Option String
  raceChanged : Quality → Bool

/-- The player state read and written by `playSong` and the error handler. -/
structure PState where
  retryCount : Nat
  audioQuality : Quality
  currentId : Option SId
  hasSrc : Bool
  isPlaying : Bool
  isLoading : Bool
  deriving DecidableEq, Repr

/-- `playSong(song, forceQuality?)` (PlayerContext.tsx lines 271-412),
fueled so the `128k` retry recursion is structural.  The second component
counts the automatic quality-degradation retries issued by the call.  The
same-song toggle early return, the retry-counter reset on a manual call
(`forceQuality` absent), the race-condition discard, and the
no-URL/degrade/terminal branches follow the source. -/
def playSongFuel (env : PEnv) (songId : SId) :
    Nat → PState → Option Quality → PState × Nat
  | 0, st, _ => (st, 0)
  | n + 1, st, force =>
    let target := force.getD st.audioQuality
    if st.currentId = some songId ∧ force = none ∧ st.hasSrc then (st, 0)
    else
      let rc := if force = none then 0 else st.retryCount
      let st1 : PState :=
        { st with retryCount := rc, currentId := some songId, isLoading := true }
      if env.raceChanged target then (st1, 0)
      else
        match env.resolve target with
        | some _ =>
          ({ st1 with hasSrc := true, isPlaying := true, isLoading := false }, 0)
        | none =>
          if target ≠ .q128 ∧ rc = 0 then
            let r := playSongFuel env songId n { st1 with retryCount := 1 } (some Quality.q128)
            (r.1, r.2 + 1)
          else
            ({ st1 with isLoading := false, isPlaying := false }, 0)

/-- `playSong` with enough fuel for the single possible retry. -/
def playSongM (env : PEnv) (songId : SId) (st : PState) (force : Option Quality) :
    PState × Nat :=
  playSongFuel env songId 2 st force

/-- The audio element `error` handler (PlayerContext.tsx lines 158-172):
with a current song, a non-lowest configured quality and a zero retry
counter, set the counter and replay the current song at `'128k'`; otherwise
the failure is terminal (playback stopped, counter cleared). -/
def audioErrorStep (env : PEnv) (st : PState) : PState × Nat :=
  match st.currentId with
  | some cid =>
    if st.audioQuality ≠ .q128 ∧ st.retryCount = 0 then
      let r := playSongFuel env cid 2 { st with retryCount := 1 } (some Quality.q128)
      (r.1, r.2 + 1)
    else ({ st with isLoading := false, isPlaying := false, retryCount := 0 }, 0)
  | none => ({ st with isLoading := false, isPlaying := false, retryCount := 0 }, 0)

/-! ## Claim C1: QQ identity extraction -/

/-- C1 (counterexample): for the QQ record `{id: 5, songmid: "003x8B"}`,
which carries both a numeric `id` and a `songmid`, `findId` with platform
`'qq'` returns the stringified numeric id `"5"`, not the `songmid` string
`"003x8B"`: the source probes `id` before `mid`/`songmid`. -/
theorem findId_qq_songmid_cex :
    findId (jobjL [("id", .jnum 5), ("songmid", .jstr "003x8B")]) "qq" = some "5" ∧
    ("5" : String) ≠ "003x8B" :=
  ⟨rfl, by decide⟩

/-- C1 (amended): for every truthy QQ record without a truthy `topId`, a
truthy `id` field wins: `findId` returns `String(id)` regardless of any
`mid`/`songmid` field.  The probe order is `topId`, `id`, `mid`, `songmid`,
`file.media_mid`. -/
theorem findId_qq_id_beats_songmid (item v : Jval)
    (ht : truthy item = true)
    (htop : tgetJ item "topId" = none)
    (hid : tgetJ item "id" = some v) :
    findId item "qq" = some (jsToString v) := by
  simp [findId, ht, firstTruthyField, htop, hid]

/-- C1 (witness): the amended theorem applied to the counterexample record. -/
theorem findId_qq_id_beats_songmid_witness :
    findId (jobjL [("id", .jnum 5), ("songmid", .jstr "003x8B")]) "qq" =
      some (jsToString (.jnum 5)) :=
  findId_qq_id_beats_songmid (jobjL [("id", .jnum 5), ("songmid", .jstr "003x8B")])
    (.jnum 5) rfl rfl rfl

/-! ## Claim C2: grouped-chart flattening -/

/-- A group wrapper carrying its songs in the `list` field. -/
def mkListGroup (l : List Jval) : Jval := jobjL [("list", jarrL l)]

theorem JObj.find_ofList_eq_none (l : List (String × Jval)) (k : String)
    (h : ∀ p ∈ l, p.1 ≠ k) : JObj.find (JObj.ofList l) k = none := by
  induction l with
  | nil => rfl
  | cons p t ih =>
    cases p with
    | mk pk pv =>
      simp only [JObj.ofList, JObj.find]
      rw [if_neg (h (pk, pv) (List.mem_cons_self _ _))]
      exact ih (fun q hq => h q (List.mem_cons_of_mem _ hq))

theorem groupInner_mkListGroup (l : List Jval) : groupInner (mkListGroup l) = jarrL l := rfl

theorem flattenGroup_mkListGroup (gs : List (List Jval)) :
    flattenGroup (gs.map mkListGroup) = gs.flatten := by
  induction gs with
  | nil => rfl
  | cons g t ih =>
    have h1 : asElems (groupInner (mkListGroup g)) = g := by
      rw [groupInner_mkListGroup]
      simp [asElems, jarrL]
    simp only [List.map_cons, flattenGroup, List.flatMap_cons, List.flatten_cons] at ih ⊢
    rw [h1, ih]

theorem extractList_group_top (gl : JArr) (rest : JObj)
    (hdata : JObj.find rest "data" = none)
    (hgl : JObj.find rest "groupList" = none) :
    extractList (.jobj (.cons "group" (.jarr gl) rest)) =
      some (flattenGroup gl.toList) := by
  simp [extractList, getField, JObj.find, hdata, hgl, truthy, truthyO, flattenGroupV]

/-- C2: for grouped-chart payloads — an object whose `group` (or
`groupList`, possibly under a `data` wrapper) field is an array of groups
each carrying its songs in a per-group list field — `extractList` returns
the concatenation of all groups' song lists, preserving group order and
within-group order; this holds in the presence of arbitrary additional
top-level fields (other than `data`/`groupList`, which would be probed
first), so grouped-chart detection takes priority over the generic
top-level field scan (e.g. a coexisting `tracks` array is ignored). -/
theorem extractList_grouped_flatten (gs : List (List Jval)) (extra : List (String × Jval))
    (hdata : ∀ p ∈ extra, p.1 ≠ "data")
    (hgl : ∀ p ∈ extra, p.1 ≠ "groupList") :
    extractList (.jobj (.cons "group" (jarrL (gs.map mkListGroup)) (JObj.ofList extra))) =
      some gs.flatten ∧
    extractList (jobjL [("data", jobjL [("group", jarrL (gs.map mkListGroup))])]) =
      some gs.flatten ∧
    extractList (jobjL [("groupList", jarrL (gs.map mkListGroup))]) =
      some gs.flatten := by
  refine ⟨?_, ?_, ?_⟩
  · rw [show jarrL (gs.map mkListGroup) = .jarr (JArr.ofList (gs.map mkListGroup)) from rfl,
      extractList_group_top (JArr.ofList (gs.map mkListGroup)) (JObj.ofList extra)
        (JObj.find_ofList_eq_none extra "data" hdata)
        (JObj.find_ofList_eq_none extra "groupList" hgl),
      JArr.toList_ofList, flattenGroup_mkListGroup]
  · rw [show extractList (jobjL [("data", jobjL [("group", jarrL (gs.map mkListGroup))])]) =
        some (flattenGroup (JArr.ofList (gs.map mkListGroup)).toList) from rfl,
      JArr.toList_ofList, flattenGroup_mkListGroup]
  · rw [show extractList (jobjL [("groupList", jarrL (gs.map mkListGroup))]) =
        some (flattenGroup (JArr.ofList (gs.map mkListGroup)).toList) from rfl,
      JArr.toList_ofList, flattenGroup_mkListGroup]

/-- C2 (witness): the spec's example with an extra `tracks` field —
`{group:[{list:[{id:1},{id:2}]},{list:[{id:3}]}], tracks:[]}` flattens to
`[{id:1},{id:2},{id:3}]`, and likewise under a `data` wrapper. -/
theorem extractList_grouped_flatten_witness :
    extractList (.jobj (.cons "group"
        (jarrL [mkListGroup [jobjL [("id", .jnum 1)], jobjL [("id", .jnum 2)]],
                mkListGroup [jobjL [("id", .jnum 3)]]])
        (JObj.ofList [("tracks", jarrL [])]))) =
      some [jobjL [("id", .jnum 1)], jobjL [("id", .jnum 2)], jobjL [("id", .jnum 3)]] ∧
    extractList (jobjL [("data", jobjL [("group",
        jarrL [mkListGroup [jobjL [("id", .jnum 1)], jobjL [("id", .jnum 2)]],
               mkListGroup [jobjL [("id", .jnum 3)]]])])]) =
      some [jobjL [("id", .jnum 1)], jobjL [("id", .jnum 2)], jobjL [("id", .jnum 3)]] ∧
    extractList (jobjL [("groupList",
        jarrL [mkListGroup [jobjL [("id", .jnum 1)], jobjL [("id", .jnum 2)]],
               mkListGroup [jobjL [("id", .jnum 3)]]])]) =
      some [jobjL [("id", .jnum 1)], jobjL [("id", .jnum 2)], jobjL [("id", .jnum 3)]] :=
  extractList_grouped_flatten
    [[jobjL [("id", .jnum 1)], jobjL [("id", .jnum 2)]], [jobjL [("id", .jnum 3)]]]
    [("tracks", jarrL [])]
    (by intro p hp; rw [List.mem_singleton] at hp; subst hp; decide)
    (by intro p hp; rw [List.mem_singleton] at hp; subst hp; decide)

/-! ## Claim C3: garbage detection and proxy exhaustion -/

theorem processProxies_skip (tf : Option (Jval → Option Jval)) (a : Attempt)
    (rest : List Attempt) (h : attemptSkipped a = true) :
    processProxies tf (a :: rest) = processProxies tf rest := by
  cases a with
  | fetchErr => rfl
  | ok raw =>
    simp only [attemptSkipped, Bool.or_eq_true, Bool.not_eq_true'] at h
    rcases h with (h | h) | h
    · simp [processProxies, h]
    · by_cases t : truthy raw = true
      · simp [processProxies, t, h]
      · simp [processProxies, t]
    · by_cases t : truthy raw = true
      · by_cases g : isGarbage raw = true
        · simp [processProxies, t, g]
        · simp [processProxies, t, g, h]
      · simp [processProxies, t]

theorem processProxies_none_of_all (tf : Option (Jval → Option Jval))
    (atts : List Attempt) (h : ∀ a ∈ atts, attemptSkipped a = true) :
    processProxies tf atts = none := by
  induction atts with
  | nil => rfl
  | cons a t ih =>
    rw [processProxies_skip tf a t (h a (List.mem_cons_self _ _))]
    exact ih (fun b hb => h b (List.mem_cons_of_mem _ hb))

/-- C3: an attempt whose unwrapped response is the array `[-1]` (first
element the number `-1` or the string `"-1"`) is skipped — the loop
continues with the remaining proxies instead of returning that array — and
when every attempt fails or is garbage, `executeMethod` returns `null`
(it never throws: the per-attempt `try`/`catch` is modelled by
`Attempt.fetchErr`). -/
theorem executeMethod_garbage_guard (tf : Option (Jval → Option Jval))
    (a : Attempt) (rest : List Attempt) (res : Jval) (atts : List Attempt)
    (hskip : attemptSkipped a = true)
    (hall : ∀ b ∈ atts, attemptSkipped b = true) :
    processProxies tf (a :: rest) = processProxies tf rest ∧
    executeMethodM res tf atts = none ∧
    attemptSkipped (.ok (jarrL [.jnum (-1)])) = true ∧
    attemptSkipped (.ok (jarrL [.jstr "-1"])) = true := by
  refine ⟨processProxies_skip tf a rest hskip, ?_, rfl, rfl⟩
  unfold executeMethodM
  split
  · rfl
  · split
    · rfl
    · split
      · rfl
      · exact processProxies_none_of_all tf atts hall

/-- C3 (witness): with a valid descriptor response, a fetch failure
followed by `["-1"]` and `[-1]` responses exhausts the proxies and yields
`null`; the head garbage attempt is skipped. -/
theorem executeMethod_garbage_guard_witness :
    processProxies none [Attempt.ok (jarrL [.jnum (-1)])] = processProxies none [] ∧
    executeMethodM (jobjL [("code", .jnum 0), ("data", .jstr "d")]) none
      [Attempt.fetchErr, Attempt.ok (jarrL [.jstr "-1"]), Attempt.ok (jarrL [.jnum (-1)])] =
      none ∧
    attemptSkipped (.ok (jarrL [.jnum (-1)])) = true ∧
    attemptSkipped (.ok (jarrL [.jstr "-1"])) = true :=
  executeMethod_garbage_guard none (.ok (jarrL [.jnum (-1)])) []
    (jobjL [("code", .jnum 0), ("data", .jstr "d")])
    [Attempt.fetchErr, Attempt.ok (jarrL [.jstr "-1"]), Attempt.ok (jarrL [.jnum (-1)])]
    rfl
    (by
      intro b hb
      simp only [List.mem_cons, List.not_mem_nil, or_false] at hb
      rcases hb with rfl | rfl | rfl <;> rfl)

/-! ## Claim C4: aggregate search interleaving -/

/-- C4: `searchAggregate` merges provider result lists round-robin by
position — for A=[a1,a2], B=[b1], C=[c1,c2,c3] the merge is
[a1,b1,c1,a2,c2,c3], exhausted lists contributing nothing — and a failed
provider (outcome `none`, turned into `[]` by the `.catch`) behaves exactly
like a provider returning an empty list. -/
theorem searchAggregate_round_robin {α : Type} (a1 a2 b1 c1 c2 c3 : α)
    (pre suf : List (Option (List α))) :
    searchAggregateM [some [a1, a2], some [b1], some [c1, c2, c3]] =
      [a1, b1, c1, a2, c2, c3] ∧
    searchAggregateM (pre ++ none :: suf) =
      searchAggregateM (pre ++ some ([] : List α) :: suf) := by
  refine ⟨rfl, ?_⟩
  simp [searchAggregateM]

/-! ## Claim C9: song identity comparisons -/

/-- C9 (counterexample): the queue and favorites dedup checks compare
`String(id)` only, never `source`: the netease song with numeric id 123 and
the qq song with string id "123" are conflated — `addToQueue` refuses to add
the qq song to a queue holding the netease one, and `toggleFavorite`
removes the netease favorite when toggling the qq song; the race check
likewise treats equal ids as the same selection with no source input. -/
theorem dedup_ignores_source_cex :
    addToQueue [⟨.num 123, "netease"⟩] ⟨.str "123", "qq"⟩ =
      [(⟨.num 123, "netease"⟩ : CSong)] ∧
    toggleFavorite [⟨.num 123, "netease"⟩] ⟨.str "123", "qq"⟩ = [] ∧
    ("netease" : String) ≠ "qq" ∧
    raceDiscards (some (.str "9")) (.str "9") = false := by
  refine ⟨rfl, rfl, by decide, rfl⟩

/-- C9 (amended): song dedup/equality checks compare `String(id)` alone and
ignore `source`: a song whose stringified id already occurs in the queue is
not appended (whatever its source); toggling a favorite removes every entry
with the same stringified id; a song with a fresh stringified id is
appended; and the in-flight race check discards exactly when the raw ids
differ, with no source comparison. -/
theorem dedup_by_id_only (q q2 favs : List CSong) (s : CSong) (t : CSong)
    (i j : SId)
    (ht : t ∈ q) (hid : sidStr t.id = sidStr s.id)
    (hfresh : ∀ u ∈ q2, sidStr u.id ≠ sidStr s.id) :
    addToQueue q s = q ∧
    addToQueue q2 s = q2 ++ [s] ∧
    toggleFavorite (t :: favs) s =
      (t :: favs).filter (fun x => sidStr x.id ≠ sidStr s.id) ∧
    (raceDiscards (some i) j = false ↔ i = j) := by
  refine ⟨?_, ?_, ?_, ?_⟩
  · unfold addToQueue
    rw [if_pos]
    exact List.any_eq_true.mpr ⟨t, ht, by simp [hid]⟩
  · unfold addToQueue
    have hno : ¬ (q2.any (fun x => sidStr x.id = sidStr s.id) = true) := by
      intro hcontra
      rcases List.any_eq_true.mp hcontra with ⟨u, hu, hequ⟩
      exact hfresh u hu (by simpa using hequ)
    rw [if_neg hno]
  · unfold toggleFavorite
    rw [if_pos]
    exact List.any_eq_true.mpr ⟨t, List.mem_cons_self t favs, by simp [hid]⟩
  · simp [raceDiscards]

/-- C9 (witness): the amended theorem at concrete inputs — a queue holding
the netease song 123, a fresh queue holding only id 7, and equal race ids. -/
theorem dedup_by_id_only_witness :
    addToQueue [⟨.num 123, "netease"⟩] ⟨.str "123", "qq"⟩ =
      [(⟨.num 123, "netease"⟩ : CSong)] ∧
    addToQueue [⟨.num 7, "kuwo"⟩] ⟨.str "123", "qq"⟩ =
      [⟨.num 7, "kuwo"⟩] ++ [(⟨.str "123", "qq"⟩ : CSong)] ∧
    toggleFavorite [⟨.num 123, "netease"⟩] ⟨.str "123", "qq"⟩ =
      [(⟨.num 123, "netease"⟩ : CSong)].filter
        (fun x => sidStr x.id ≠ sidStr (SId.str "123")) ∧
    (raceDiscards (some (.str "9")) (.str "9") = false ↔ SId.str "9" = .str "9") :=
  dedup_by_id_only [⟨.num 123, "netease"⟩] [⟨.num 7, "kuwo"⟩] []
    ⟨.str "123", "qq"⟩ ⟨.num 123, "netease"⟩ (.str "9") (.str "9")
    (List.mem_singleton.mpr rfl) (by decide) (by decide)

/-! ## Claim C10: `getSongUrl` guard and result shape -/

/-- The raw `url` field `getSongUrl` reads from a successful parse; used to
express that every non-null result is that value passed through `fixUrl`. -/
def parsedHeadUrl (id : String) (source resp : Jval) : Jval :=
  match parseSongsM id source resp with
  | (.ok l, _) => fget (l.headD .jundefined) "url"
  | _ => .jundefined

/-- C10: `getSongUrl` with a falsy `source` or the literal string
`'undefined'` returns `null` without any network request; and whenever it
returns a non-null string, that string is non-empty and is exactly the
`fixUrl`-normalized raw url of the first parsed record (the empty string is
collapsed to `null` by `fixUrl(url) || null`). -/
theorem getSongUrl_guard_and_nonempty (id id2 : String) (source resp src2 resp2 : Jval)
    (s : String) (b : Bool)
    (hsrc : truthy source = false ∨ isUndefinedLiteral source = true)
    (hret : getSongUrlM id2 src2 resp2 = (.ret (some s), b)) :
    getSongUrlM id source resp = (.ret none, false) ∧
    s ≠ "" ∧
    s = fixUrl (parsedHeadUrl id2 src2 resp2) := by
  constructor
  · unfold getSongUrlM
    rcases hsrc with h | h
    · rw [if_pos (Or.inl (by simp [h]))]
    · rw [if_pos (Or.inr h)]
  · unfold getSongUrlM at hret
    by_cases hguard : ¬ truthy src2 ∨ isUndefinedLiteral src2 = true
    · rw [if_pos hguard] at hret
      exact absurd hret (by simp)
    · rw [if_neg hguard] at hret
      unfold parsedHeadUrl
      rcases hp : parseSongsM id2 src2 resp2 with ⟨pr, nb⟩
      rw [hp] at hret
      cases pr with
      | nullRes => exact absurd hret (by simp)
      | thrown => exact absurd hret (by simp)
      | ok l =>
        simp only at hret
        by_cases hfix : fixUrl (fget (l.headD .jundefined) "url") = ""
        · rw [if_pos hfix] at hret
          exact absurd hret (by simp)
        · rw [if_neg hfix] at hret
          have hs : some s = some (fixUrl (fget (l.headD .jundefined) "url")) := by
            have := congrArg Prod.fst hret
            simpa using this.symm
          have hs2 := Option.some.inj hs
          exact ⟨hs2 ▸ hfix, hs2⟩

/-- C10 (witness): the theorem at a `null` source (guard) and at a parse
response whose first record has the url `http://music.126.net/a`, which
`fixUrl` upgrades to `https://music.126.net/a`. -/
theorem getSongUrl_guard_and_nonempty_witness :
    getSongUrlM "1" .jnull .jnull = (.ret none, false) ∧
    ("https://music.126.net/a" : String) ≠ "" ∧
    ("https://music.126.net/a" : String) =
      fixUrl (parsedHeadUrl "1" (.jstr "netease")
        (jobjL [("data", jobjL [("songs",
          jarrL [jobjL [("url", .jstr "http://music.126.net/a")]])])])) :=
  getSongUrl_guard_and_nonempty "1" "1" .jnull .jnull (.jstr "netease")
    (jobjL [("data", jobjL [("songs",
      jarrL [jobjL [("url", .jstr "http://music.126.net/a")]])])])
    "https://music.126.net/a" true (Or.inl rfl) rfl

/-! ## Claim C5: one automatic quality-degradation retry -/

theorem playSongFuel_q128_no_retry (env : PEnv) (songId : SId) (fuel : Nat) (st : PState) :
    (playSongFuel env songId fuel st (some .q128)).2 = 0 := by
  cases fuel with
  | zero => rfl
  | succ n =>
    simp only [playSongFuel, Option.getD]
    rw [if_neg (by simp)]
    split
    · rfl
    · split
      · rfl
      · rw [if_neg (by simp)]

theorem playSongFuel_retries_le_one (env : PEnv) (songId : SId) (fuel : Nat) (st : PState)
    (force : Option Quality) : (playSongFuel env songId fuel st force).2 ≤ 1 := by
  cases fuel with
  | zero => exact Nat.zero_le 1
  | succ n =>
    simp only [playSongFuel]
    repeat' split
    all_goals simp [playSongFuel_q128_no_retry]

/-- C5: per playback attempt, at most one automatic degradation retry is
ever issued.  `playSong` issues at most one retry for any fuel, state and
forced quality; a manual play (`forceQuality` absent, so the retry counter
is reset) whose resolution fails at a non-lowest configured quality issues
exactly one retry at `'128k'`, and when that retry also fails the attempt
ends terminal (not playing, not loading, counter 1) with a subsequent audio
error event issuing no further retry; the audio error handler itself issues
exactly one retry when the counter is zero and the configured quality is
not `'128k'`, and none when the counter is non-zero. -/
theorem playback_single_auto_retry (env : PEnv) (songId cid : SId)
    (st st2 st3 : PState) (fuel : Nat) (force : Option Quality)
    (hns : ¬ (st.currentId = some songId ∧ st.hasSrc = true))
    (hnr1 : env.raceChanged st.audioQuality = false)
    (hnr2 : env.raceChanged .q128 = false)
    (hfail : env.resolve st.audioQuality = none)
    (hfail2 : env.resolve .q128 = none)
    (hq : st.audioQuality ≠ .q128)
    (hcur : st2.currentId = some cid)
    (hq2 : st2.audioQuality ≠ .q128)
    (hrc2 : st2.retryCount = 0)
    (hrc3 : st3.retryCount ≠ 0) :
    (playSongFuel env songId fuel st force).2 ≤ 1 ∧
    (playSongM env songId st none).2 = 1 ∧
    (playSongM env songId st none).1.isPlaying = false ∧
    (playSongM env songId st none).1.isLoading = false ∧
    (playSongM env songId st none).1.retryCount = 1 ∧
    (audioErrorStep env (playSongM env songId st none).1).2 = 0 ∧
    (audioErrorStep env st2).2 = 1 ∧
    (audioErrorStep env st3).2 = 0 := by
  have hdeg :
      playSongM env songId st none =
        ({ st with retryCount := 1, currentId := some songId,
                   isLoading := false, isPlaying := false }, 1) := by
    simp only [playSongM, playSongFuel, Option.getD]
    rw [if_neg (fun hc => hns ⟨hc.1, hc.2.2⟩), hnr1]
    simp only [Bool.false_eq_true, if_false, hfail]
    rw [if_pos ⟨hq, rfl⟩, hnr2]
    simp [hfail2]
  refine ⟨playSongFuel_retries_le_one env songId fuel st force, ?_, ?_, ?_, ?_, ?_, ?_, ?_⟩
  · rw [hdeg]
  · rw [hdeg]
  · rw [hdeg]
  · rw [hdeg]
  · rw [hdeg]
    simp [audioErrorStep]
  · simp only [audioErrorStep, hcur]
    rw [if_pos ⟨hq2, hrc2⟩]
    simp [playSongFuel_q128_no_retry]
  · cases h3 : st3.currentId with
    | none => simp [audioErrorStep, h3]
    | some c => simp [audioErrorStep, h3, hrc3]

/-- C5 (witness): a fresh manual play at `'320k'` of a track resolving at
no tier — one retry then terminal; the error handler at counter 0 retries
once and at counter 1 does not. -/
theorem playback_single_auto_retry_witness :
    (playSongFuel ⟨fun _ => none, fun _ => false⟩ (.str "1") 5
      ⟨0, .q320, none, false, false, false⟩ none).2 ≤ 1 ∧
    (playSongM ⟨fun _ => none, fun _ => false⟩ (.str "1")
      ⟨0, .q320, none, false, false, false⟩ none).2 = 1 ∧
    (playSongM ⟨fun _ => none, fun _ => false⟩ (.str "1")
      ⟨0, .q320, none, false, false, false⟩ none).1.isPlaying = false ∧
    (playSongM ⟨fun _ => none, fun _ => false⟩ (.str "1")
      ⟨0, .q320, none, false, false, false⟩ none).1.isLoading = false ∧
    (playSongM ⟨fun _ => none, fun _ => false⟩ (.str "1")
      ⟨0, .q320, none, false, false, false⟩ none).1.retryCount = 1 ∧
    (audioErrorStep ⟨fun _ => none, fun _ => false⟩
      (playSongM ⟨fun _ => none, fun _ => false⟩ (.str "1")
        ⟨0, .q320, none, false, false, false⟩ none).1).2 = 0 ∧
    (audioErrorStep ⟨fun _ => none, fun _ => false⟩
      ⟨0, .q320, some (.str "1"), true, true, false⟩).2 = 1 ∧
    (audioErrorStep ⟨fun _ => none, fun _ => false⟩
      ⟨1, .q320, some (.str "1"), true, false, false⟩).2 = 0 :=
  playback_single_auto_retry ⟨fun _ => none, fun _ => false⟩ (.str "1") (.str "1")
    ⟨0, .q320, none, false, false, false⟩
    ⟨0, .q320, some (.str "1"), true, true, false⟩
    ⟨1, .q320, some (.str "1"), true, false, false⟩
    5 none
    (by simp) rfl rfl rfl rfl (by decide) rfl (by decide) rfl (by decide)

/-! ## Claim C6: placeholder identities are rejected -/

theorem isPrefixCL_append (p q : List Char) : isPrefixCL p (p ++ q) = true := by
  induction p with
  | nil => rfl
  | cons c cs ih => simp [isPrefixCL, ih]

theorem sStartsWith_append (pre rest : String) :
    sStartsWith (pre ++ rest) pre = true := by
  simp only [sStartsWith, String.data_append]
  exact isPrefixCL_append pre.data rest.data

theorem mem_normalizeSongsAux (platform : String) (tokens : Nat → String)
    (j i : Nat) (list : List Jval) (item : Jval) (s : SongM)
    (hget : list.get? i = some item)
    (hs : normalizeSong platform (tokens (j + i)) item = some s) :
    s ∈ normalizeSongsAux platform tokens j list := by
  induction list generalizing i j with
  | nil => simp at hget
  | cons x rest ih =>
    cases i with
    | zero =>
      have hx : x = item := by simpa using hget
      subst hx
      rw [Nat.add_zero] at hs
      simp only [normalizeSongsAux, hs]
      exact List.mem_cons_self _ _
    | succ i2 =>
      have hget2 : rest.get? i2 = some item := by simpa using hget
      have hs2 : normalizeSong platform (tokens ((j + 1) + i2)) item = some s := by
        rw [show (j + 1) + i2 = j + (i2 + 1) from by omega]
        exact hs
      have hmem := ih (j + 1) i2 hget2 hs2
      simp only [normalizeSongsAux]
      cases hx : normalizeSong platform (tokens j) x with
      | none => exact hmem
      | some s0 => exact List.mem_cons_of_mem _ hmem

/-- C6: a truthy record in which `findId` discovers no identity is
normalized to a `Song` whose id is `temp_<token>` (hence matching the
`temp_` prefix pattern) with `isValidId = false`, and that song is in the
`normalizeSongs` output; and `parseSongs` — hence URL and lyric resolution
— returns `null` for any id with the `temp_` prefix without issuing a
network request. -/
theorem temp_id_rejected (platform : String) (tokens : Nat → String)
    (list : List Jval) (i : Nat) (item : Jval) (s : SongM)
    (ids : String) (pf resp : Jval)
    (hget : list.get? i = some item)
    (hid : findId (unwrapData item) platform = none)
    (hs : normalizeSong platform (tokens i) item = some s)
    (hids : sStartsWith ids "temp_" = true) :
    s.id = "temp_" ++ tokens i ∧
    s.isValidId = false ∧
    sStartsWith s.id "temp_" = true ∧
    s ∈ normalizeSongs platform tokens list ∧
    parseSongsM ids pf resp = (.nullRes, false) := by
  have hmem : s ∈ normalizeSongs platform tokens list := by
    unfold normalizeSongs
    exact mem_normalizeSongsAux platform tokens 0 i list item s hget (by simpa using hs)
  have hfields : s.id = "temp_" ++ tokens i ∧ s.isValidId = false := by
    unfold normalizeSong at hs
    by_cases ht : truthy item = true
    · simp only [ht, not_true_eq_false, if_false, hid, Option.isSome_none,
        Option.some.injEq] at hs
      rw [← hs]
      exact ⟨rfl, rfl⟩
    · simp [ht] at hs
  have hparse : parseSongsM ids pf resp = (.nullRes, false) := by
    unfold parseSongsM
    split
    · rfl
    · simp [hids]
  refine ⟨hfields.1, hfields.2, ?_, hmem, hparse⟩
  rw [hfields.1]
  exact sStartsWith_append "temp_" (tokens i)

/-- C6 (witness): the empty record normalizes (with token `k7`) to the
placeholder song `temp_k7`, present in the output, and `parseSongs` on
`temp_abc` is a request-free `null`. -/
theorem temp_id_rejected_witness :
    (⟨"netease", "temp_k7", "Unknown Song", "Unknown Artist", "", "", false⟩ : SongM).id =
      "temp_" ++ (fun _ : Nat => "k7") 0 ∧
    (⟨"netease", "temp_k7", "Unknown Song", "Unknown Artist", "", "", false⟩ : SongM).isValidId =
      false ∧
    sStartsWith (⟨"netease", "temp_k7", "Unknown Song", "Unknown Artist", "", "", false⟩ :
      SongM).id "temp_" = true ∧
    (⟨"netease", "temp_k7", "Unknown Song", "Unknown Artist", "", "", false⟩ : SongM) ∈
      normalizeSongs "netease" (fun _ => "k7") [jobjL []] ∧
    parseSongsM "temp_abc" (.jstr "netease") .jnull = (.nullRes, false) :=
  temp_id_rejected "netease" (fun _ => "k7") [jobjL []] 0 (jobjL [])
    ⟨"netease", "temp_k7", "Unknown Song", "Unknown Artist", "", "", false⟩
    "temp_abc" (.jstr "netease") .jnull rfl rfl rfl rfl

/-! ## Claim C8: template substitution -/

/-- C8 (counterexample): with variables `{x: "1"}`, the placeholder
`\x7b\x7bx+1\x7d\x7d` is NOT evaluated as an expression: the substituted
URL keeps the placeholder verbatim, whereas the claim requires the
evaluation result (`a2b`) or, on evaluation failure, the empty string
(`ab`). -/
theorem replaceVars_no_eval_cex :
    replaceVars [("x", "1")] "a\x7b\x7bx+1\x7d\x7db" = "a\x7b\x7bx+1\x7d\x7db" ∧
    ("a\x7b\x7bx+1\x7d\x7db" : String) ≠ "a2b" ∧
    ("a\x7b\x7bx+1\x7d\x7db" : String) ≠ "ab" ∧
    sContains "a\x7b\x7bx+1\x7d\x7db" "\x7b\x7b" = true :=
  ⟨rfl, by decide, by decide, rfl⟩

theorem replaceAllCLF_of_not_contains (pat rep : List Char) (l : List Char)
    (h : containsCL pat l = false) :
    ∀ fuel, replaceAllCLF pat rep fuel l = l := by
  induction l with
  | nil => intro fuel; cases fuel <;> rfl
  | cons c cs ih =>
    intro fuel
    cases fuel with
    | zero => rfl
    | succ n =>
      rw [containsCL, Bool.or_eq_false_iff] at h
      simp only [replaceAllCLF]
      rw [if_neg (by simp [h.1])]
      rw [ih h.2 n]

theorem replaceAllCLF_nil (pat rep : List Char) (fuel : Nat) :
    replaceAllCLF pat rep fuel [] = [] := by
  cases fuel <;> rfl

theorem replaceAllCLF_whole (pat rep : List Char) (hne : pat ≠ []) :
    replaceAllCLF pat rep pat.length pat = rep := by
  cases pat with
  | nil => exact absurd rfl hne
  | cons c cs =>
    simp only [List.length_cons, replaceAllCLF]
    rw [if_pos]
    · rw [show List.drop (cs.length + 1) (c :: cs) = [] from by
        simp [List.drop_length]]
      rw [replaceAllCLF_nil, List.append_nil]
    · rw [Bool.and_eq_true]
      refine ⟨rfl, ?_⟩
      have := isPrefixCL_append (c :: cs) []
      rwa [List.append_nil] at this

/-- C8 (amended): `replaceVars` — applied by the executor to the request
URL and to each param value — replaces each literal `\x7b\x7bkey\x7d\x7d`
placeholder, where `key` is a key of the variables map, by the
`encodeURIComponent`-encoded variable value; a string containing no such
exact-key placeholder is left entirely unchanged (no expression evaluation,
no empty-string fallback); the request body is never templated (the proxied
fetch sends no body), so no native-type preservation occurs. -/
theorem replaceVars_key_substitution (k v s2 : String)
    (hnone : sContains s2 ("\x7b\x7b" ++ k ++ "\x7d\x7d") = false) :
    replaceVars [(k, v)] ("\x7b\x7b" ++ k ++ "\x7d\x7d") = encodeURIComponent v ∧
    replaceVars [(k, v)] s2 = s2 := by
  have hne : ("\x7b\x7b" ++ k ++ "\x7d\x7d").data ≠ [] := by
    intro hcontra
    have hlen := congrArg List.length hcontra
    rw [String.data_append, String.data_append, List.length_append,
      List.length_append] at hlen
    rw [show ("\x7b\x7b" : String).data.length = 2 from rfl,
      show ("\x7d\x7d" : String).data.length = 2 from rfl] at hlen
    simp at hlen
  constructor
  · show sReplaceAll ("\x7b\x7b" ++ k ++ "\x7d\x7d") ("\x7b\x7b" ++ k ++ "\x7d\x7d")
      (encodeURIComponent v) = encodeURIComponent v
    unfold sReplaceAll
    rw [replaceAllCLF_whole _ _ hne]
  · show sReplaceAll s2 ("\x7b\x7b" ++ k ++ "\x7d\x7d") (encodeURIComponent v) = s2
    unfold sReplaceAll
    rw [replaceAllCLF_of_not_contains _ _ _ hnone]

/-- C8 (witness): the amended theorem with key `x`, value `1 2` (URL-encoded
to `1%202`) and the placeholder-free string `plain`. -/
theorem replaceVars_key_substitution_witness :
    replaceVars [("x", "1 2")] ("\x7b\x7b" ++ "x" ++ "\x7d\x7d") =
      encodeURIComponent "1 2" ∧
    replaceVars [("x", "1 2")] "plain" = "plain" :=
  replaceVars_key_substitution "x" "1 2" "plain" rfl

/-! ## Claim C7: display-field placeholders -/

/-- Every key `normalizeSongs` probes while resolving the name, artist,
album and cover of a record. -/
def displayKeys : List String :=
  ["name", "title", "songname", "artist", "ar", "artists", "singer", "artist_name",
   "album", "album_name", "albumname", "albummid", "album_mid", "mac_detail", "al"] ++
  imageKeys

/-- C7: every `Song` that `normalizeSongs` produces has `String`-typed
name/artist/album/pic (the source wraps each of the four in `String(...)`,
which the `String` field types of `SongM` encode), and a record carrying
none of the probed display fields yields exactly the documented
placeholders: name `"Unknown Song"`, artist `"Unknown Artist"`, album and
pic the empty string. -/
theorem normalize_placeholder_defaults (platform tok : String) (item : Jval) (s : SongM)
    (hs : normalizeSong platform tok item = some s)
    (habsent : ∀ k ∈ displayKeys, (getField (unwrapData item) k).isNone = true) :
    s.name = "Unknown Song" ∧ s.artist = "Unknown Artist" ∧ s.album = "" ∧ s.pic = "" := by
  have hk : ∀ k ∈ displayKeys, getField (unwrapData item) k = none :=
    fun k hkk => Option.isNone_iff_eq_none.mp (habsent k hkk)
  set A := unwrapData item with hA
  have h01 : getField A "name" = none := hk _ (by decide)
  have h02 : getField A "title" = none := hk _ (by decide)
  have h03 : getField A "songname" = none := hk _ (by decide)
  have h04 : getField A "artist" = none := hk _ (by decide)
  have h05 : getField A "ar" = none := hk _ (by decide)
  have h06 : getField A "artists" = none := hk _ (by decide)
  have h07 : getField A "singer" = none := hk _ (by decide)
  have h08 : getField A "artist_name" = none := hk _ (by decide)
  have h09 : getField A "album" = none := hk _ (by decide)
  have h10 : getField A "album_name" = none := hk _ (by decide)
  have h11 : getField A "albumname" = none := hk _ (by decide)
  have h12 : getField A "albummid" = none := hk _ (by decide)
  have h13 : getField A "album_mid" = none := hk _ (by decide)
  have h14 : getField A "mac_detail" = none := hk _ (by decide)
  have h15 : getField A "al" = none := hk _ (by decide)
  have h16 : getField A "picUrl" = none := hk _ (by decide)
  have h17 : getField A "coverImgUrl" = none := hk _ (by decide)
  have h18 : getField A "pic" = none := hk _ (by decide)
  have h19 : getField A "pic_v12" = none := hk _ (by decide)
  have h20 : getField A "frontPicUrl" = none := hk _ (by decide)
  have h21 : getField A "headPicUrl" = none := hk _ (by decide)
  have h22 : getField A "img" = none := hk _ (by decide)
  have h23 : getField A "cover" = none := hk _ (by decide)
  have h24 : getField A "imgUrl" = none := hk _ (by decide)
  have h25 : getField A "album_pic" = none := hk _ (by decide)
  have h26 : getField A "albumpic" = none := hk _ (by decide)
  have hname : jsToString (jsOr (fget A "name")
      (jsOr (fget A "title") (jsOr (fget A "songname") (.jstr "Unknown Song")))) =
      "Unknown Song" := by
    simp [fget, h01, h02, h03, jsOr, truthy, jsToString]
  have hart : resolveArtist A = .jundefined := by
    simp [resolveArtist, fget, h04, h05, h06, h07, h08, tgetJ, truthy]
  have halb : resolveAlbum A = .jundefined := by
    simp [resolveAlbum, fget, h09, h10, h11, truthy, truthyO]
  have himg : findImage A = .jstr "" := by
    by_cases ht : truthy A = true
    · simp [findImage, ht, firstStringField, h16, h17, h18, h19, h20, h21, h22,
        h23, h24, h25, h26, tgetJ, h14, imageKeys]
    · simp [findImage, ht]
  have hal0 : (getField A "al").bind (fun al => getField al "picUrl") = none := by
    rw [h15]
    rfl
  have halb0 : (getField A "album").bind (fun al => getField al "picUrl") = none := by
    rw [h09]
    rfl
  have hmid0 : (getField A "album").bind (fun al => getField al "mid") = none := by
    rw [h09]
    rfl
  have hpic : resolvePic platform A = "" := by
    by_cases hp : platform = "qq"
    · simp [resolvePic, himg, truthy, truthyO, hal0, halb0, hmid0, h12, h13,
        fget, jsOr, fixUrl, hp]
    · simp [resolvePic, himg, truthy, truthyO, hal0, halb0, fget, fixUrl, hp]
  unfold normalizeSong at hs
  by_cases ht : truthy item = true
  · simp only [ht, not_true_eq_false, if_false, Option.some.injEq] at hs
    rw [← hs]
    rw [← hA] at *
    refine ⟨hname, ?_, ?_, ?_⟩
    · show jsToString (jsOr (resolveArtist A) (.jstr "Unknown Artist")) = "Unknown Artist"
      rw [hart]
      rfl
    · show jsToString (jsOr (resolveAlbum A) (.jstr "")) = ""
      rw [halb]
      rfl
    · show (if resolvePic platform A = "" then "" else resolvePic platform A) = ""
      rw [hpic]
      rfl
  · simp [ht] at hs

/-- C7 (witness): the record `{id: 9}` (a valid identity, no display
fields) normalizes under platform `qq` to the full placeholder song. -/
theorem normalize_placeholder_defaults_witness :
    (⟨"qq", "9", "Unknown Song", "Unknown Artist", "", "", true⟩ : SongM).name =
      "Unknown Song" ∧
    (⟨"qq", "9", "Unknown Song", "Unknown Artist", "", "", true⟩ : SongM).artist =
      "Unknown Artist" ∧
    (⟨"qq", "9", "Unknown Song", "Unknown Artist", "", "", true⟩ : SongM).album = "" ∧
    (⟨"qq", "9", "Unknown Song", "Unknown Artist", "", "", true⟩ : SongM).pic = "" :=
  normalize_placeholder_defaults "qq" "z" (jobjL [("id", .jnum 9)])
    ⟨"qq", "9", "Unknown Song", "Unknown Artist", "", "", true⟩
    rfl (by decide)

end TuneFree
